import Mathlib

/-!
# Rolling-Window Sync Client: a verification of the Export API sync protocol

The repository is a documentation site; its `export-api.md` describes a
timestamp-cursor ("rolling window") pull-replication protocol that an external
middleware client implements. The specification formalises that protocol as a
client library (Cursor Store, Fetch Client, Idempotent Applier, Sync
Orchestrator). No implementation of the client exists in the repository, so
every definition below is modelled from the spec's words and the protocol
description in `docs/api-reference/export-api.md`.
-/

namespace LhzSync

/-- Modelled from the spec: the `format` field of a record is an open
string-like enumeration with six known values (`Video`, `Course`, `Article`,
`Podcast`, `Playlist`, `Cover`) plus forward-compatible unknowns, modelled as
a tagged variant with a fallback `unknown` case carrying the raw string
(spec §3, §9; export-api.md "Response Fields"). -/
inductive Format where
  | video
  | course
  | article
  | podcast
  | playlist
  | cover
  | unknown (raw : String)
deriving DecidableEq, Repr

/-- Modelled from the spec: decoding of the wire `format` string into the
tagged variant; every string not among the six known values falls back to
`Format.unknown`, so decoding is total and never rejects a new value
(spec §9 design note). -/
def parseFormat (s : String) : Format :=
  if s = "Video" then .video
  else if s = "Course" then .course
  else if s = "Article" then .article
  else if s = "Podcast" then .podcast
  else if s = "Playlist" then .playlist
  else if s = "Cover" then .cover
  else .unknown s

/-- Modelled from the spec: a Learning Resource record as returned by
`GET /GetResources` (spec §3 data model; export-api.md "Response Fields").
`ts` is the record's own sync timestamp — the ordering key. -/
structure Resource where
  resourceId : String
  format : Format
  type : String
  title : String
  theme : Option String
  subject : Option String
  thumbnailLocation : Option String
  length : Option String
  publicationDate : Option String
  deleted : Bool
  ts : Int
deriving DecidableEq, Repr

/-- Modelled from the spec: a User Activity Event record as returned by
`GET /GetUserActivityEvents` (spec §3 data model; export-api.md "Response
Fields"). `eventTs` embeds the wire field `_ts`, the ordering key; the
natural key is the composite (`eventTime`, `username`, `resourceId`). -/
structure ActivityEvent where
  eventTime : String
  username : String
  resourceId : String
  format : Format
  length : Option Int
  duration : Int
  title : String
  theme : Option String
  subject : Option String
  type : String
  eventTs : Int
deriving DecidableEq, Repr

/-- Modelled from the spec: `RemoteRecord` is polymorphic over the two
variants, Resource and ActivityEvent (spec §3). -/
inductive RemoteRecord where
  | resource (r : Resource)
  | event (e : ActivityEvent)
deriving DecidableEq, Repr

/-- Modelled from the spec: the ordering key of a record — `ts` for
resources, `_ts` for activity events (spec §3). -/
def orderingKey : RemoteRecord → Int
  | .resource r => r.ts
  | .event e => e.eventTs

/-- Modelled from the spec: the composite natural key of an activity event,
(`eventTime`, `username`, `resourceId`) (spec §3, §4.3). -/
def eventKey (e : ActivityEvent) : String × String × String :=
  (e.eventTime, e.username, e.resourceId)

/-- Generic upsert on an association list: replaces the value at the key when
present, appends the binding otherwise. -/
def upsertAssoc {κ α : Type} [DecidableEq κ] (k : κ) (v : α) :
    List (κ × α) → List (κ × α)
  | [] => [(k, v)]
  | (k', v') :: rest =>
    if k = k' then (k, v) :: rest else (k', v') :: upsertAssoc k v rest

/-- Generic lookup on an association list. -/
def lookupAssoc {κ α : Type} [DecidableEq κ] (k : κ) :
    List (κ × α) → Option α
  | [] => none
  | (k', v') :: rest => if k = k' then some v' else lookupAssoc k rest

/-- Modelled from the spec: the local mirrored store, holding the mirrored
resources keyed by `resourceId` and the mirrored activity events keyed by
their composite natural key (spec §2, §4.3). -/
structure LocalStore where
  resources : List (String × Resource)
  events : List ((String × String × String) × ActivityEvent)
deriving DecidableEq, Repr

/-- Modelled from the spec: the always-succeeding part of the Idempotent
Applier — an upsert keyed by the record's natural key: `resourceId` for
resources, (`eventTime`, `username`, `resourceId`) for events. A deleted
resource (`deleted = true`) is upserted like any other, so the local
mirrored copy is marked deleted rather than physically removed (spec §4.3). -/
def applyRecord (r : RemoteRecord) (s : LocalStore) : LocalStore :=
  match r with
  | .resource res => { s with resources := upsertAssoc res.resourceId res s.resources }
  | .event ev => { s with events := upsertAssoc (eventKey ev) ev s.events }

/-- Modelled from the spec: `RecordApplyError` names the offending record's
key (spec §4.3, §7). -/
structure RecordApplyError where
  key : String
deriving DecidableEq, Repr

/-- Modelled from the spec: the contract `apply(record) -> ApplyResult` of the
Idempotent Applier (spec §4.3): success carries the updated store, failure a
`RecordApplyError`. The orchestrator is parametric in the applier so that
apply failures can be analysed. -/
abbrev ApplyFn : Type :=
  RemoteRecord → LocalStore → Except RecordApplyError LocalStore

/-- Modelled from the spec: the canonical Idempotent Applier, which always
succeeds by upserting at the natural key (spec §4.3). -/
def apply : ApplyFn := fun r s => .ok (applyRecord r s)

theorem lookupAssoc_upsertAssoc_self {κ α : Type} [DecidableEq κ]
    (k : κ) (v : α) (l : List (κ × α)) :
    lookupAssoc k (upsertAssoc k v l) = some v := by
  induction l with
  | nil => simp [upsertAssoc, lookupAssoc]
  | cons hd tl ih =>
    obtain ⟨k', v'⟩ := hd
    by_cases h : k = k' <;> simp [upsertAssoc, lookupAssoc, h, ih]

theorem lookupAssoc_upsertAssoc_ne {κ α : Type} [DecidableEq κ]
    (k k' : κ) (v : α) (l : List (κ × α)) (h : k' ≠ k) :
    lookupAssoc k' (upsertAssoc k v l) = lookupAssoc k' l := by
  induction l with
  | nil => simp [upsertAssoc, lookupAssoc, h]
  | cons hd tl ih =>
    obtain ⟨k'', v''⟩ := hd
    by_cases hk : k = k''
    · subst hk
      simp [upsertAssoc, lookupAssoc, h]
    · by_cases hk' : k' = k'' <;> simp [upsertAssoc, lookupAssoc, hk, hk', ih]

theorem upsertAssoc_upsertAssoc_self {κ α : Type} [DecidableEq κ]
    (k : κ) (v w : α) (l : List (κ × α)) :
    upsertAssoc k v (upsertAssoc k w l) = upsertAssoc k v l := by
  induction l with
  | nil => simp [upsertAssoc]
  | cons hd tl ih =>
    obtain ⟨k', v'⟩ := hd
    by_cases h : k = k' <;> simp [upsertAssoc, h, ih]

/-- Modelled from the spec: the Cursor Store persists the last successfully
applied timestamp per collection name (spec §4.1). -/
structure CursorStore where
  cursors : List (String × Int)
deriving DecidableEq, Repr

/-- Modelled from the spec: `get(collectionName) -> timestamp`, returning 0
if absent — meaning "full resync" (spec §4.1). -/
def CursorStore.get (cs : CursorStore) (collection : String) : Int :=
  (lookupAssoc collection cs.cursors).getD 0

/-- Modelled from the spec: `set(collectionName, timestamp)` (spec §4.1). -/
def CursorStore.set (cs : CursorStore) (collection : String) (ts : Int) :
    CursorStore :=
  ⟨upsertAssoc collection ts cs.cursors⟩

/-- Modelled from the spec: the outcome of the Fetch Client, which either
returns a finite ordered batch of records or surfaces one of the error kinds
`TransientFetchError` (network/timeout/5xx), `AuthError` (HTTP 401/403) or
`RequestError` (other 4xx) (spec §4.2). -/
inductive FetchResult where
  | success (batch : List RemoteRecord)
  | transientError
  | authError
  | requestError
deriving DecidableEq, Repr

/-- Modelled from the spec: the error taxonomy of a sync cycle (spec §7). -/
inductive SyncError where
  | transient
  | auth
  | request
  | recordApply (e : RecordApplyError)
deriving DecidableEq, Repr

/-- Modelled from the spec: the reported outcome of one sync cycle — success
or a failure from the error taxonomy (spec §4.4, §7). -/
inductive CycleResult where
  | ok
  | failed (e : SyncError)
deriving DecidableEq, Repr

/-- Modelled from the spec: the combined state a sync cycle acts on — the
persisted cursor store and the local mirrored store (spec §3 ownership). -/
structure SyncState where
  cursorStore : CursorStore
  store : LocalStore
deriving DecidableEq, Repr

/-- Modelled from the spec: step 4 of the cycle — apply every record of the
batch in the response's ascending order; on the first failing record, stop:
the failing record's apply is atomic, so the store keeps exactly the records
applied so far (spec §4.3, §4.4 step 4). Returns the resulting store and the
error, if any. -/
def applyBatch (applier : ApplyFn) :
    List RemoteRecord → LocalStore → LocalStore × Option RecordApplyError
  | [], s => (s, none)
  | r :: rs, s =>
    match applier r s with
    | .ok s' => applyBatch applier rs s'
    | .error e => (s, some e)

/-- Modelled from the spec: the ordering key of the LAST record of a
non-empty batch (spec §4.4 step 5). -/
def lastOrderingKey (r : RemoteRecord) : List RemoteRecord → Int
  | [] => orderingKey r
  | r' :: rs => lastOrderingKey r' rs

/-- Modelled from the spec: one sync cycle of the Sync Orchestrator for a
given collection, as a pure function of the current state and the fetch
result (spec §4.4 algorithm, §9 design note):
fetch errors abort with the cursor untouched; an empty batch is a successful
no-op; otherwise the batch is applied in order, a record failure aborts
without advancing the cursor, and only a fully applied batch sets the cursor
to the last record's ordering key. -/
def runCycle (applier : ApplyFn) (collection : String) (fetch : FetchResult)
    (st : SyncState) : SyncState × CycleResult :=
  match fetch with
  | .transientError => (st, .failed .transient)
  | .authError => (st, .failed .auth)
  | .requestError => (st, .failed .request)
  | .success [] => (st, .ok)
  | .success (r :: rs) =>
    match applyBatch applier (r :: rs) st.store with
    | (s', some e) => ({ st with store := s' }, .failed (.recordApply e))
    | (s', none) =>
      ({ cursorStore := st.cursorStore.set collection (lastOrderingKey r rs),
         store := s' }, .ok)

/-- Modelled from the spec: the caller-side handling of `AuthError` — refresh
the credential (external collaborator, out of scope) and retry the call once
with the cursor untouched (spec §4.2). `retryFetch` is the fetch result of
the retried call. -/
def runCycleWithAuthRetry (applier : ApplyFn) (collection : String)
    (fetch retryFetch : FetchResult) (st : SyncState) :
    SyncState × CycleResult :=
  match runCycle applier collection fetch st with
  | (st', .failed .auth) => runCycle applier collection retryFetch st'
  | other => other

/-- Modelled from the spec: a sequence of sync cycles for one collection,
each driven by the corresponding fetch result (spec §4.4, §9). -/
def runCycles (applier : ApplyFn) (collection : String) :
    List FetchResult → SyncState → SyncState
  | [], st => st
  | f :: fs, st =>
    runCycles applier collection fs (runCycle applier collection f st).1

/-- Modelled from the spec: is a batch ordered by ordering key ascending
(ties allowed, as the key has second-level granularity)? (spec §3
invariant). -/
def sortedAsc : List RemoteRecord → Bool
  | [] => true
  | [_] => true
  | a :: b :: rs =>
    decide (orderingKey a ≤ orderingKey b) && sortedAsc (b :: rs)

/-- Modelled from the spec: a well-formed fetch result for a given cursor —
the server returns only records strictly newer than the cursor (`ts` is a
strict lower bound, spec §4.4 rationale), ordered ascending by ordering key
(spec §3 invariant). Error outcomes carry no records. -/
def validFetch (cursor : Int) : FetchResult → Bool
  | .success batch =>
    batch.all (fun r => decide (cursor < orderingKey r)) && sortedAsc batch
  | _ => true

/-- Modelled from the spec: a sequence of fetch results each of which is
well-formed for the cursor in force when it is consumed (spec §3, §4.4). -/
def validRun (applier : ApplyFn) (collection : String) :
    List FetchResult → SyncState → Bool
  | [], _ => true
  | f :: fs, st =>
    validFetch (st.cursorStore.get collection) f &&
      validRun applier collection fs (runCycle applier collection f st).1

theorem CursorStore.get_set_self (cs : CursorStore) (c : String) (v : Int) :
    (cs.set c v).get c = v := by
  simp [CursorStore.get, CursorStore.set, lookupAssoc_upsertAssoc_self]

theorem applyBatch_append_ok (applier : ApplyFn) (pre l : List RemoteRecord)
    (s s₁ : LocalStore) (h : applyBatch applier pre s = (s₁, none)) :
    applyBatch applier (pre ++ l) s = applyBatch applier l s₁ := by
  induction pre generalizing s with
  | nil =>
    simp [applyBatch] at h
    simp [h]
  | cons r rs ih =>
    simp only [applyBatch] at h ⊢
    cases happ : applier r s with
    | ok s' =>
      rw [happ] at h
      simp only [List.cons_append, applyBatch, happ]
      exact ih s' h
    | error e =>
      rw [happ] at h
      simp at h

theorem lastOrderingKey_mem (r : RemoteRecord) (rs : List RemoteRecord) :
    ∃ x, x ∈ r :: rs ∧ lastOrderingKey r rs = orderingKey x := by
  induction rs generalizing r with
  | nil => exact ⟨r, by simp, rfl⟩
  | cons r' rs' ih =>
    obtain ⟨x, hx, hkey⟩ := ih r'
    exact ⟨x, by simpa using Or.inr hx, hkey⟩

theorem sortedAsc_le_last (r : RemoteRecord) (rs : List RemoteRecord)
    (h : sortedAsc (r :: rs) = true) :
    ∀ x ∈ r :: rs, orderingKey x ≤ lastOrderingKey r rs := by
  induction rs generalizing r with
  | nil =>
    intro x hx
    simp at hx
    simp [hx, lastOrderingKey]
  | cons r' rs' ih =>
    simp only [sortedAsc, Bool.and_eq_true, decide_eq_true_eq] at h
    intro x hx
    rcases List.mem_cons.mp hx with hx | hx
    · subst hx
      calc orderingKey x ≤ orderingKey r' := h.1
        _ ≤ lastOrderingKey r' rs' := ih r' h.2 r' (by simp)
    · exact ih r' h.2 x hx

theorem cycle_cursor_le (applier : ApplyFn) (collection : String)
    (f : FetchResult) (st : SyncState)
    (h : validFetch (st.cursorStore.get collection) f = true) :
    st.cursorStore.get collection ≤
      ((runCycle applier collection f st).1).cursorStore.get collection ∧
    ((runCycle applier collection f st).2 ≠ CycleResult.ok →
      ((runCycle applier collection f st).1).cursorStore.get collection =
        st.cursorStore.get collection) := by
  cases f with
  | transientError => exact ⟨le_refl _, fun _ => rfl⟩
  | authError => exact ⟨le_refl _, fun _ => rfl⟩
  | requestError => exact ⟨le_refl _, fun _ => rfl⟩
  | success batch =>
    cases batch with
    | nil => exact ⟨le_refl _, fun _ => rfl⟩
    | cons r rs =>
      rcases happ : applyBatch applier (r :: rs) st.store with ⟨s', err⟩
      cases err with
      | some e =>
        refine ⟨?_, fun _ => ?_⟩ <;> simp [runCycle, happ]
      | none =>
        constructor
        · simp only [runCycle, happ]
          rw [CursorStore.get_set_self]
          obtain ⟨x, hx, hkey⟩ := lastOrderingKey_mem r rs
          rw [hkey]
          simp only [validFetch, Bool.and_eq_true, List.all_eq_true,
            decide_eq_true_eq] at h
          exact le_of_lt (h.1 x hx)
        · intro hne
          exact absurd (by simp [runCycle, happ]) hne

theorem runCycles_cursor_le (applier : ApplyFn) (collection : String)
    (fs : List FetchResult) (st : SyncState)
    (h : validRun applier collection fs st = true) :
    st.cursorStore.get collection ≤
      (runCycles applier collection fs st).cursorStore.get collection := by
  induction fs generalizing st with
  | nil => exact le_refl _
  | cons f fs ih =>
    simp only [validRun, Bool.and_eq_true] at h
    calc st.cursorStore.get collection
        ≤ ((runCycle applier collection f st).1).cursorStore.get collection :=
          (cycle_cursor_le applier collection f st h.1).1
      _ ≤ _ := ih _ h.2

/-- An applier that rejects exactly the records whose `resourceId` equals the
given identifier, used to exhibit record-level apply failures. -/
def failOn (badId : String) : ApplyFn := fun r s =>
  match r with
  | .resource res =>
    if res.resourceId = badId then .error ⟨res.resourceId⟩
    else .ok (applyRecord r s)
  | .event ev =>
    if ev.resourceId = badId then .error ⟨ev.resourceId⟩
    else .ok (applyRecord r s)

/-- A concrete Resource record for the concrete instantiations below. -/
def mkResource (id : String) (ts : Int) (del : Bool) : Resource :=
  { resourceId := id, format := .video, type := "video", title := id,
    theme := none, subject := none, thumbnailLocation := none,
    length := none, publicationDate := none, deleted := del, ts := ts }

/-- A concrete Resource wrapped as a RemoteRecord. -/
def wRes (id : String) (ts : Int) : RemoteRecord :=
  .resource (mkResource id ts false)

/-- A concrete ActivityEvent for the concrete instantiations below. -/
def mkEvent (t u rid : String) (dur ts : Int) : ActivityEvent :=
  { eventTime := t, username := u, resourceId := rid, format := .video,
    length := none, duration := dur, title := "t", theme := none,
    subject := none, type := "video", eventTs := ts }

/-- The empty local store. -/
def emptyStore : LocalStore := ⟨[], []⟩

/-- A fresh sync state: no cursors persisted, empty local store. -/
def wSt0 : SyncState := ⟨⟨[]⟩, emptyStore⟩

/-- A sync state whose `resources` cursor is 5, with an empty local store. -/
def wSt5 : SyncState := ⟨⟨[("resources", 5)]⟩, emptyStore⟩

/-- Claim C1: all-or-nothing cursor advancement. If a batch splits as
`pre ++ rk :: post` with `pre` and `post` non-empty (so the failing record is
at position k with 1 < k < N), applying `pre` succeeds yielding `s₁`, and the
applier fails on `rk`, then the cycle ends with the cursor store untouched,
the local store holding exactly the records of `pre` (records 1..k-1), and
the cycle reporting failure; in particular the stored cursor for the
collection equals its value before the cycle. -/
theorem all_or_nothing_cursor (applier : ApplyFn) (collection : String)
    (pre : List RemoteRecord) (rk : RemoteRecord) (post : List RemoteRecord)
    (st : SyncState) (s₁ : LocalStore) (e : RecordApplyError)
    (hpre : pre ≠ []) (hpost : post ≠ [])
    (happly : applyBatch applier pre st.store = (s₁, none))
    (hfail : applier rk s₁ = .error e) :
    runCycle applier collection (.success (pre ++ rk :: post)) st =
      ({ st with store := s₁ }, .failed (.recordApply e)) ∧
    ((runCycle applier collection
        (.success (pre ++ rk :: post)) st).1).cursorStore.get collection =
      st.cursorStore.get collection := by
  obtain ⟨p, pre', rfl⟩ : ∃ p pre', pre = p :: pre' := by
    cases pre with
    | nil => exact absurd rfl hpre
    | cons p pre' => exact ⟨p, pre', rfl⟩
  have hb : applyBatch applier ((p :: pre') ++ rk :: post) st.store =
      (s₁, some e) := by
    rw [applyBatch_append_ok applier (p :: pre') (rk :: post) st.store s₁ happly]
    simp [applyBatch, hfail]
  have hb' : applyBatch applier (p :: (pre' ++ rk :: post)) st.store =
      (s₁, some e) := by simpa using hb
  have h1 : runCycle applier collection
      (.success ((p :: pre') ++ rk :: post)) st =
      ({ st with store := s₁ }, .failed (.recordApply e)) := by
    simp [runCycle, hb']
  exact ⟨h1, by rw [h1]⟩

/-- Witness for C1: a three-record batch whose middle record (k = 2, N = 3)
is rejected by the applier; the cycle leaves the cursor store untouched,
keeps record 1 applied, and reports failure. -/
theorem all_or_nothing_cursor_witness :
    ([wRes "a" 10] : List RemoteRecord) ≠ [] ∧
    ([wRes "c" 12] : List RemoteRecord) ≠ [] ∧
    applyBatch (failOn "bad") [wRes "a" 10] wSt0.store =
      (applyRecord (wRes "a" 10) emptyStore, none) ∧
    failOn "bad" (wRes "bad" 11) (applyRecord (wRes "a" 10) emptyStore) =
      .error ⟨"bad"⟩ ∧
    runCycle (failOn "bad") "resources"
        (.success ([wRes "a" 10] ++ wRes "bad" 11 :: [wRes "c" 12])) wSt0 =
      ({ wSt0 with store := applyRecord (wRes "a" 10) emptyStore },
        .failed (.recordApply ⟨"bad"⟩)) := by
  refine ⟨by simp, by simp, by decide, by rfl, ?_⟩
  exact (all_or_nothing_cursor (failOn "bad") "resources"
    [wRes "a" 10] (wRes "bad" 11) [wRes "c" 12] wSt0
    (applyRecord (wRes "a" 10) emptyStore) ⟨"bad"⟩
    (by simp) (by simp) (by decide) (by rfl)).1

/-- Claim C2: cursor monotonicity. For any applier: a cycle consuming a
well-formed fetch result never decreases the stored cursor, and a cycle that
does not report success leaves the cursor exactly unchanged (the cursor
advances only after a fully successful batch apply); consequently over any
sequence of cycles with well-formed fetches the cursor is monotonically
non-decreasing. -/
theorem cursor_monotone (applier : ApplyFn) (collection : String) :
    (∀ (f : FetchResult) (st : SyncState),
      validFetch (st.cursorStore.get collection) f = true →
        st.cursorStore.get collection ≤
          ((runCycle applier collection f st).1).cursorStore.get collection ∧
        ((runCycle applier collection f st).2 ≠ CycleResult.ok →
          ((runCycle applier collection f st).1).cursorStore.get collection =
            st.cursorStore.get collection)) ∧
    (∀ (fs : List FetchResult) (st : SyncState),
      validRun applier collection fs st = true →
        st.cursorStore.get collection ≤
          (runCycles applier collection fs st).cursorStore.get collection) :=
  ⟨fun f st h => cycle_cursor_le applier collection f st h,
   fun fs st h => runCycles_cursor_le applier collection fs st h⟩

/-- Witness for C2: from a state with cursor 5, a well-formed two-record
batch advances the cursor, and a one-cycle run never regresses it. -/
theorem cursor_monotone_witness :
    validFetch (wSt5.cursorStore.get "resources")
      (.success [wRes "a" 10, wRes "b" 12]) = true ∧
    wSt5.cursorStore.get "resources" ≤
      ((runCycle apply "resources"
        (.success [wRes "a" 10, wRes "b" 12]) wSt5).1).cursorStore.get
        "resources" ∧
    validRun apply "resources" [.success [wRes "a" 10, wRes "b" 12]] wSt5 =
      true ∧
    wSt5.cursorStore.get "resources" ≤
      (runCycles apply "resources" [.success [wRes "a" 10, wRes "b" 12]]
        wSt5).cursorStore.get "resources" :=
  ⟨by decide,
   ((cursor_monotone apply "resources").1
     (.success [wRes "a" 10, wRes "b" 12]) wSt5 (by decide)).1,
   by decide,
   (cursor_monotone apply "resources").2
     [.success [wRes "a" 10, wRes "b" 12]] wSt5 (by decide)⟩

/-- Claim C3: idempotence of the applier. For every record (either variant,
including deleted resources) and every local store, applying the record
twice yields the same local state as applying it once; the second invocation
of `apply` succeeds and returns the unchanged state. -/
theorem apply_idempotent (r : RemoteRecord) (s : LocalStore) :
    applyRecord r (applyRecord r s) = applyRecord r s ∧
    apply r (applyRecord r s) = .ok (applyRecord r s) := by
  have h2 : applyRecord r (applyRecord r s) = applyRecord r s := by
    cases r <;> simp [applyRecord, upsertAssoc_upsertAssoc_self]
  exact ⟨h2, by simp [apply, h2]⟩

/-- Claim C4: a fully successful non-empty sorted batch sets the cursor to the
ordering key of the LAST record of the batch, the cycle reports success, and
under the ascending-order precondition that key is the maximum ordering key
over all records of the batch. -/
theorem cursor_advances_to_last_key (applier : ApplyFn) (collection : String)
    (r : RemoteRecord) (rs : List RemoteRecord) (st : SyncState)
    (s' : LocalStore)
    (hsorted : sortedAsc (r :: rs) = true)
    (happly : applyBatch applier (r :: rs) st.store = (s', none)) :
    (runCycle applier collection (.success (r :: rs)) st).2 = .ok ∧
    ((runCycle applier collection
        (.success (r :: rs)) st).1).cursorStore.get collection =
      lastOrderingKey r rs ∧
    ∀ x ∈ r :: rs, orderingKey x ≤ lastOrderingKey r rs := by
  refine ⟨by simp [runCycle, happly], ?_, sortedAsc_le_last r rs hsorted⟩
  simp [runCycle, happly, CursorStore.get_set_self]

/-- Witness for C4: a sorted three-record batch applied with the canonical
applier ends successfully with the cursor set to the last record's key 12,
which bounds every key in the batch. -/
theorem cursor_advances_to_last_key_witness :
    sortedAsc [wRes "a" 10, wRes "b" 10, wRes "c" 12] = true ∧
    applyBatch apply [wRes "a" 10, wRes "b" 10, wRes "c" 12] wSt0.store =
      (applyRecord (wRes "c" 12) (applyRecord (wRes "b" 10)
        (applyRecord (wRes "a" 10) emptyStore)), none) ∧
    ((runCycle apply "resources"
        (.success [wRes "a" 10, wRes "b" 10, wRes "c" 12]) wSt0).1
      ).cursorStore.get "resources" =
      lastOrderingKey (wRes "a" 10) [wRes "b" 10, wRes "c" 12] := by
  refine ⟨by decide, by decide, ?_⟩
  exact (cursor_advances_to_last_key apply "resources"
    (wRes "a" 10) [wRes "b" 10, wRes "c" 12] wSt0
    (applyRecord (wRes "c" 12) (applyRecord (wRes "b" 10)
      (applyRecord (wRes "a" 10) emptyStore)))
    (by decide) (by decide)).2.1

/-- Claim C5: fetch errors leave the state untouched. A cycle whose fetch raises
`TransientFetchError` or `AuthError` ends with the whole state (cursor store
included) exactly as before and reports the corresponding failure, so the
next attempt reads the identical cursor; in the `AuthError` case the
caller-side retry-once wrapper re-runs the cycle on the unchanged state. -/
theorem fetch_error_keeps_cursor (applier : ApplyFn) (collection : String)
    (st : SyncState) (retryFetch : FetchResult) :
    runCycle applier collection .transientError st = (st, .failed .transient) ∧
    runCycle applier collection .authError st = (st, .failed .auth) ∧
    ((runCycle applier collection .authError st).1).cursorStore.get collection =
      st.cursorStore.get collection ∧
    runCycleWithAuthRetry applier collection .authError retryFetch st =
      runCycle applier collection retryFetch st :=
  ⟨rfl, rfl, rfl, rfl⟩

/-- Claim C6: empty batch no-op. A cycle whose fetch succeeds with zero records
leaves the entire state (hence the cursor, whatever its value — including 0)
unchanged and reports success. -/
theorem empty_batch_noop (applier : ApplyFn) (collection : String)
    (st : SyncState) :
    runCycle applier collection (.success []) st = (st, .ok) := rfl

/-- Claim C7: the composite natural key of activity events. Two events agreeing on
(`eventTime`, `username`, `resourceId`) target the same local entry (the
second upsert fully supersedes the first), while events differing in the key
target distinct entries (both remain retrievable after both applies). -/
theorem event_composite_key (e₁ e₂ : ActivityEvent) (s : LocalStore) :
    (eventKey e₁ = eventKey e₂ →
      applyRecord (.event e₂) (applyRecord (.event e₁) s) =
        applyRecord (.event e₂) s) ∧
    (eventKey e₁ ≠ eventKey e₂ →
      lookupAssoc (eventKey e₁)
          ((applyRecord (.event e₂) (applyRecord (.event e₁) s)).events) =
        some e₁ ∧
      lookupAssoc (eventKey e₂)
          ((applyRecord (.event e₂) (applyRecord (.event e₁) s)).events) =
        some e₂) := by
  constructor
  · intro hkey
    simp [applyRecord, hkey, upsertAssoc_upsertAssoc_self]
  · intro hkey
    constructor
    · simp only [applyRecord]
      rw [lookupAssoc_upsertAssoc_ne _ _ _ _ hkey,
        lookupAssoc_upsertAssoc_self]
    · simp only [applyRecord]
      rw [lookupAssoc_upsertAssoc_self]

/-- Witness for C7: two events sharing the composite key collapse to one
entry; changing only the username yields two distinct entries. -/
theorem event_composite_key_witness :
    (eventKey (mkEvent "t0" "u1" "r1" 6 100) =
        eventKey (mkEvent "t0" "u1" "r1" 60 200) ∧
      applyRecord (.event (mkEvent "t0" "u1" "r1" 60 200))
          (applyRecord (.event (mkEvent "t0" "u1" "r1" 6 100)) emptyStore) =
        applyRecord (.event (mkEvent "t0" "u1" "r1" 60 200)) emptyStore) ∧
    (eventKey (mkEvent "t0" "u1" "r1" 6 100) ≠
        eventKey (mkEvent "t0" "u2" "r1" 6 100) ∧
      lookupAssoc (eventKey (mkEvent "t0" "u1" "r1" 6 100))
          ((applyRecord (.event (mkEvent "t0" "u2" "r1" 6 100))
            (applyRecord (.event (mkEvent "t0" "u1" "r1" 6 100))
              emptyStore)).events) =
        some (mkEvent "t0" "u1" "r1" 6 100)) :=
  ⟨⟨by decide,
    (event_composite_key (mkEvent "t0" "u1" "r1" 6 100)
      (mkEvent "t0" "u1" "r1" 60 200) emptyStore).1 (by decide)⟩,
   ⟨by decide,
    ((event_composite_key (mkEvent "t0" "u1" "r1" 6 100)
      (mkEvent "t0" "u2" "r1" 6 100) emptyStore).2 (by decide)).1⟩⟩

/-- Claim C8: deleted resources are marked, not removed. For a Resource record
with `deleted = true` whose `resourceId` already exists in the local store,
a successful single-record cycle with the canonical applier leaves the entry
present and equal to the incoming record (so it carries the `deleted`
marker and stays inspectable), and advances the cursor to the record's
`ts`. -/
theorem deleted_resource_marked (collection : String) (r r₀ : Resource)
    (st : SyncState) (hdel : r.deleted = true)
    (hmem : lookupAssoc r.resourceId st.store.resources = some r₀) :
    (runCycle apply collection (.success [.resource r]) st).2 = .ok ∧
    lookupAssoc r.resourceId
      ((runCycle apply collection
        (.success [.resource r]) st).1).store.resources = some r ∧
    r.deleted = true ∧
    ((runCycle apply collection
        (.success [.resource r]) st).1).cursorStore.get collection = r.ts := by
  refine ⟨?_, ?_, hdel, ?_⟩
  · simp [runCycle, applyBatch, apply]
  · simp [runCycle, applyBatch, apply, applyRecord, lookupAssoc_upsertAssoc_self]
  · simp [runCycle, applyBatch, apply, CursorStore.get_set_self,
      lastOrderingKey, orderingKey]

/-- Witness for C8: re-delivering resource "a" with `deleted = true` over a
store already holding "a" keeps the entry (now marked deleted) and moves the
cursor to 1728000000. -/
theorem deleted_resource_marked_witness :
    (mkResource "a" 1728000000 true).deleted = true ∧
    lookupAssoc "a" (applyRecord (wRes "a" 1727890123) emptyStore).resources =
      some (mkResource "a" 1727890123 false) ∧
    lookupAssoc "a"
      ((runCycle apply "resources"
        (.success [.resource (mkResource "a" 1728000000 true)])
        ⟨⟨[("resources", 1727890123)]⟩,
          applyRecord (wRes "a" 1727890123) emptyStore⟩).1).store.resources =
      some (mkResource "a" 1728000000 true) ∧
    ((runCycle apply "resources"
        (.success [.resource (mkResource "a" 1728000000 true)])
        ⟨⟨[("resources", 1727890123)]⟩,
          applyRecord (wRes "a" 1727890123) emptyStore⟩).1
      ).cursorStore.get "resources" = 1728000000 := by
  refine ⟨by decide, by decide, ?_, ?_⟩
  · exact (deleted_resource_marked "resources"
      (mkResource "a" 1728000000 true) (mkResource "a" 1727890123 false)
      ⟨⟨[("resources", 1727890123)]⟩,
        applyRecord (wRes "a" 1727890123) emptyStore⟩
      (by decide) (by decide)).2.1
  · exact (deleted_resource_marked "resources"
      (mkResource "a" 1728000000 true) (mkResource "a" 1727890123 false)
      ⟨⟨[("resources", 1727890123)]⟩,
        applyRecord (wRes "a" 1727890123) emptyStore⟩
      (by decide) (by decide)).2.2.2

/-- Claim C9: unknown formats never break the applier. Every format string outside
the six known values decodes to the fallback `Format.unknown` variant rather
than being rejected, and applying a resource carrying such a format always
succeeds (apply is total — the unknown-format branch never raises). -/
theorem unknown_format_total (s : String)
    (h : s ∉ (["Video", "Course", "Article", "Podcast",
      "Playlist", "Cover"] : List String)) :
    parseFormat s = Format.unknown s ∧
    ∀ (res : Resource) (store : LocalStore), res.format = parseFormat s →
      apply (.resource res) store =
        .ok (applyRecord (.resource res) store) := by
  simp only [List.mem_cons, List.not_mem_nil, or_false, not_or] at h
  obtain ⟨h1, h2, h3, h4, h5, h6⟩ := h
  exact ⟨by simp [parseFormat, h1, h2, h3, h4, h5, h6],
    fun res store _ => rfl⟩

/-- Witness for C9: the forward-compatible format string "Webinar" decodes
to the fallback variant and its resource applies successfully. -/
theorem unknown_format_total_witness :
    ("Webinar" ∉ (["Video", "Course", "Article", "Podcast",
      "Playlist", "Cover"] : List String)) ∧
    parseFormat "Webinar" = Format.unknown "Webinar" ∧
    apply (.resource { mkResource "w" 7 false with
        format := parseFormat "Webinar" }) emptyStore =
      .ok (applyRecord (.resource { mkResource "w" 7 false with
        format := parseFormat "Webinar" }) emptyStore) := by
  refine ⟨by decide, (unknown_format_total "Webinar" (by decide)).1, ?_⟩
  exact (unknown_format_total "Webinar" (by decide)).2
    { mkResource "w" 7 false with format := parseFormat "Webinar" }
    emptyStore rfl

end LhzSync
